import Mathlib

/-!
Verification of the configure-craft-env tool (src/index.js) against its
natural-language specification.  The JavaScript source is shallowly embedded:
command-line values become an explicit JS-value type (minimist yields
undefined, strings, booleans or numbers), the Homestead YAML document becomes
a record of optional lists, and each configuration step becomes a pure Lean
function mirroring the corresponding lines of index.js.
-/

namespace CraftEnv

/-- A JavaScript value as produced by minimist for a command-line flag:
`undef` for an absent flag, a string, a boolean (bare flags become `true`),
or a number (numeric-looking arguments are auto-parsed). -/
inductive JSVal where
  | undef : JSVal
  | str : String → JSVal
  | bool : Bool → JSVal
  | num : Int → JSVal
deriving DecidableEq, Repr

/-- JavaScript truthiness of a `JSVal` (as used by `!securityKey`,
`if (databasePrefix)` and `pkg.name` checks in index.js). -/
def jsTruthy : JSVal → Bool
  | .undef => false
  | .str s => s ≠ ""
  | .bool b => b
  | .num n => n ≠ 0

/-- JavaScript string interpolation of a `JSVal`, as in a template literal
such as the replacement value built from the securityKey variable. -/
def jsToString : JSVal → String
  | .undef => "undefined"
  | .str s => s
  | .bool b => if b then "true" else "false"
  | .num n => toString n

/-- Whether a `JSVal` is a string, i.e. the JavaScript test
`typeof v === 'string'` used throughout the flag resolution in index.js. -/
def jsIsStr : JSVal → Bool
  | .str _ => true
  | _ => false

/-- A shared-folder entry of the Homestead YAML document: the keys `map`,
`to` (spelled `toPath` because `to` is reserved in Lean) and `type`,
as pushed by index.js lines 122-136. -/
structure Folder where
  map : String
  toPath : String
  type : String
deriving DecidableEq, Repr

/-- A site entry of the Homestead YAML document: the keys `map` and `to`
(spelled `toPath`), as pushed by index.js lines 142-147. -/
structure Site where
  map : String
  toPath : String
deriving DecidableEq, Repr

/-- The Homestead YAML document as round-tripped by index.js: the read-only
`ip` plus the three optional collections (`undefined` when the key is absent
from the YAML, modelled as `none`). -/
structure BoxConfig where
  ip : String
  folders : Option (List Folder)
  sites : Option (List Site)
  databases : Option (List String)
deriving DecidableEq, Repr

/-- The resolved project configuration fields used by the merge step of
index.js: the working directory (`process.cwd()`), the resolved project
name, the ssl path and the local domain. -/
structure ProjectConfig where
  cwd : String
  project : String
  sslPath : String
  localDomain : String
deriving DecidableEq, Repr

/-- The find-or-append pattern of index.js lines 122-155:
`if (!list.find(p)) { list.push(x) }`.  `list.find(p)` yields the first
element satisfying `p`, or `undefined`; the `!` then tests JS truthiness of
that result, so the push fires both when nothing is found and when the
found element itself is falsy.  `truthy` is the JS truthiness of an
element: constantly true for the folder/site objects, but `d !== ''` for
the database strings. -/
def findOrPush (truthy p : α → Bool) (x : α) (l : List α) : List α :=
  match l.find? p with
  | some y => if truthy y then l else l ++ [x]
  | none => l ++ [x]

/-- The find-or-append guard specialized to presence: push exactly when no
element satisfies `p`.  `findOrPush_eq_ifAbsent` shows `findOrPush` reduces
to this whenever every element satisfying `p` is truthy, which covers the
folder/site instantiations and, for a nonempty project name, the database
instantiation. -/
def findOrPushIfAbsent (p : α → Bool) (x : α) (l : List α) : List α :=
  if (l.find? p).isSome then l else l ++ [x]

theorem findOrPush_eq_ifAbsent {truthy p : α → Bool} {x : α} (l : List α)
    (hyp : ∀ y, p y = true → truthy y = true) :
    findOrPush truthy p x l = findOrPushIfAbsent p x l := by
  unfold findOrPush findOrPushIfAbsent
  cases hf : l.find? p with
  | none => simp
  | some y =>
    have ht := hyp y (List.find?_some hf)
    simp [ht]

/-- The folder entry pushed for the working directory
(index.js lines 123-127). -/
def cwdFolder (cfg : ProjectConfig) : Folder :=
  { map := cfg.cwd, toPath := "/home/vagrant/homestead/" ++ cfg.project, type := "nfs" }

/-- The folder entry pushed for the ssl directory (index.js lines 131-135). -/
def sslFolder (cfg : ProjectConfig) : Folder :=
  { map := cfg.sslPath, toPath := "/home/vagrant/.homesteadssl", type := "nfs" }

/-- The site entry pushed for the local domain (index.js lines 143-146). -/
def domainSite (cfg : ProjectConfig) : Site :=
  { map := cfg.localDomain, toPath := "/home/vagrant/homestead/" ++ cfg.project ++ "/www" }

/-- The two `folders` find-or-push steps of index.js lines 122-136: the
working-directory folder, then the ssl folder.  A found folder entry is an
object and hence always truthy. -/
def mergeFolders (cfg : ProjectConfig) (l : List Folder) : List Folder :=
  findOrPush (fun _ => true) (fun f => f.map == cfg.sslPath) (sslFolder cfg)
    (findOrPush (fun _ => true) (fun f => f.map == cfg.cwd) (cwdFolder cfg) l)

/-- The `sites` find-or-push step of index.js lines 142-147.  A found site
entry is an object and hence always truthy. -/
def mergeSites (cfg : ProjectConfig) (l : List Site) : List Site :=
  findOrPush (fun _ => true) (fun s => s.map == cfg.localDomain) (domainSite cfg) l

/-- The `databases` find-or-push step of index.js lines 153-155.  A found
database entry is a string, which is falsy exactly when empty, so with an
empty project name the guard `!find(...)` pushes even though the entry is
already present. -/
def mergeDatabases (cfg : ProjectConfig) (l : List String) : List String :=
  findOrPush (fun d => d != "") (fun d => d == cfg.project) cfg.project l

/-- The Box Configuration Merger (index.js lines 118-155): initialize each
absent collection to `[]` (the `if (!parsed.folders)` guards), then
find-or-append the working-directory folder, the ssl folder, the
local-domain site and the project database; `ip` is read-only. -/
def mergeBox (cfg : ProjectConfig) (box : BoxConfig) : BoxConfig :=
  { ip := box.ip,
    folders := some (mergeFolders cfg (box.folders.getD [])),
    sites := some (mergeSites cfg (box.sites.getD [])),
    databases := some (mergeDatabases cfg (box.databases.getD [])) }

theorem find?_isSome_append {p : α → Bool} {l₁ : List α} (l₂ : List α)
    (h : (l₁.find? p).isSome) : ((l₁ ++ l₂).find? p).isSome := by
  rw [List.find?_append]
  cases hl : l₁.find? p with
  | none => rw [hl] at h; simp at h
  | some a => simp [hl]

theorem findOrPushIfAbsent_find?_isSome {p : α → Bool} {x : α} (hx : p x = true)
    (l : List α) : (((findOrPushIfAbsent p x l).find? p)).isSome := by
  unfold findOrPushIfAbsent
  by_cases h : (l.find? p).isSome
  · rw [if_pos h]; exact h
  · rw [if_neg h, List.find?_append]
    cases hl : l.find? p with
    | none => simp [hx]
    | some a => rw [hl] at h; simp at h

theorem findOrPushIfAbsent_of_isSome {p : α → Bool} {x : α} {l : List α}
    (h : (l.find? p).isSome) : findOrPushIfAbsent p x l = l := by
  simp [findOrPushIfAbsent, h]

theorem findOrPushIfAbsent_isSome_mono {p q : α → Bool} {x : α} {l : List α}
    (h : (l.find? q).isSome) : ((findOrPushIfAbsent p x l).find? q).isSome := by
  unfold findOrPushIfAbsent
  by_cases hp : (l.find? p).isSome
  · rw [if_pos hp]; exact h
  · rw [if_neg hp]
    exact find?_isSome_append _ h

theorem findOrPushIfAbsent_stable {p : α → Bool} {x : α} (hx : p x = true) (l : List α) :
    findOrPushIfAbsent p x (findOrPushIfAbsent p x l) = findOrPushIfAbsent p x l :=
  findOrPushIfAbsent_of_isSome (findOrPushIfAbsent_find?_isSome hx l)

theorem findOrPushIfAbsent_spec {β : Type} {key : α → β} {p : α → Bool} {x : α}
    (hp : ∀ y, p y = true ↔ key y = key x) (l : List α) :
    ∃ t, findOrPushIfAbsent p x l = l ++ t ∧ ∀ a ∈ t, ∀ b ∈ l, key a ≠ key b := by
  unfold findOrPushIfAbsent
  by_cases hs : (l.find? p).isSome
  · exact ⟨[], by rw [if_pos hs, List.append_nil], by simp⟩
  · refine ⟨[x], by rw [if_neg hs], ?_⟩
    intro a ha b hb
    rw [List.mem_singleton] at ha
    subst ha
    have hnone := Option.not_isSome_iff_eq_none.mp hs
    rw [List.find?_eq_none] at hnone
    intro hkey
    exact hnone b hb ((hp b).mpr hkey.symm)

theorem findOrPushIfAbsent_map_nodup {β : Type} {key : α → β} {p : α → Bool} {x : α}
    (hp : ∀ y, p y = true ↔ key y = key x) {l : List α}
    (h : (l.map key).Nodup) : ((findOrPushIfAbsent p x l).map key).Nodup := by
  unfold findOrPushIfAbsent
  by_cases hs : (l.find? p).isSome
  · rw [if_pos hs]; exact h
  · rw [if_neg hs]
    have hnone := Option.not_isSome_iff_eq_none.mp hs
    rw [List.find?_eq_none] at hnone
    rw [List.map_append, List.nodup_append]
    refine ⟨h, by simp, ?_⟩
    intro a ha hb
    simp only [List.map_cons, List.map_nil, List.mem_singleton] at hb
    obtain ⟨y, hy, rfl⟩ := List.mem_map.mp ha
    exact hnone y hy ((hp y).mpr hb)

theorem mergeFolders_eq_ifAbsent (cfg : ProjectConfig) (l : List Folder) :
    mergeFolders cfg l =
      findOrPushIfAbsent (fun f => f.map == cfg.sslPath) (sslFolder cfg)
        (findOrPushIfAbsent (fun f => f.map == cfg.cwd) (cwdFolder cfg) l) := by
  unfold mergeFolders
  rw [findOrPush_eq_ifAbsent _ (fun y _ => rfl), findOrPush_eq_ifAbsent _ (fun y _ => rfl)]

theorem mergeSites_eq_ifAbsent (cfg : ProjectConfig) (l : List Site) :
    mergeSites cfg l =
      findOrPushIfAbsent (fun s => s.map == cfg.localDomain) (domainSite cfg) l := by
  unfold mergeSites
  rw [findOrPush_eq_ifAbsent _ (fun y _ => rfl)]

theorem mergeDatabases_eq_ifAbsent (cfg : ProjectConfig) (hp : cfg.project ≠ "")
    (l : List String) :
    mergeDatabases cfg l =
      findOrPushIfAbsent (fun d => d == cfg.project) cfg.project l := by
  unfold mergeDatabases
  apply findOrPush_eq_ifAbsent
  intro y hy
  have hyp2 : y = cfg.project := by simpa using hy
  subst hyp2
  simpa using hp

/-- A concrete resolved configuration: working directory `/work/foo`,
project name `foo`, default-style ssl path, domain `example.local`. -/
def cfgEx : ProjectConfig :=
  { cwd := "/work/foo", project := "foo", sslPath := "/home/u/.homesteadssl",
    localDomain := "example.local" }

/-- A Homestead document with the three collections absent. -/
def boxEx0 : BoxConfig :=
  { ip := "192.168.10.10", folders := none, sites := none, databases := none }

/-- A resolved configuration with the degenerate empty project name, as the
resolver produces for a manifest name ending in a slash
(`"craft/".split('/').pop()` is `""`) or for a root working directory
(`path.basename('/')` is `""`); `localDomain` then defaults to
`${project}.local`, i.e. `.local`. -/
def cfgEmptyProject : ProjectConfig :=
  { cwd := "/work/x", project := "", sslPath := "/home/u/.homesteadssl",
    localDomain := ".local" }

/-- C1 counterexample: with the empty project name the guard at index.js
line 153, `!parsed.databases.find((database) => database === project)`,
finds the already-present empty string - a falsy element - so a second
merge pushes it again: merging an empty box twice yields databases
`["", ""]` while merging once yields `[""]`; the merge is not idempotent
for every ProjectConfig. -/
theorem merge_not_idempotent_empty_project :
    (mergeBox cfgEmptyProject (mergeBox cfgEmptyProject boxEx0)).databases ≠
      (mergeBox cfgEmptyProject boxEx0).databases := by
  decide

/-- C1 (amended): provided the resolved project name is nonempty
(JS-truthy), applying the Box Configuration Merger of index.js lines
118-155 twice with the same ProjectConfig yields the same folders, sites
and databases collections as applying it once; with an empty project name
the databases guard finds a falsy element and appends a duplicate instead. -/
theorem merge_idempotent (cfg : ProjectConfig) (box : BoxConfig)
    (hp : cfg.project ≠ "") :
    (mergeBox cfg (mergeBox cfg box)).folders = (mergeBox cfg box).folders ∧
    (mergeBox cfg (mergeBox cfg box)).sites = (mergeBox cfg box).sites ∧
    (mergeBox cfg (mergeBox cfg box)).databases = (mergeBox cfg box).databases := by
  unfold mergeBox
  simp only [Option.getD_some, Option.some_inj]
  refine ⟨?_, ?_, ?_⟩
  · rw [mergeFolders_eq_ifAbsent, mergeFolders_eq_ifAbsent]
    have h1 : ((findOrPushIfAbsent (fun f : Folder => f.map == cfg.cwd) (cwdFolder cfg)
        (box.folders.getD [])).find? (fun f => f.map == cfg.cwd)).isSome :=
      findOrPushIfAbsent_find?_isSome (by simp [cwdFolder]) _
    have h2 : ((findOrPushIfAbsent (fun f : Folder => f.map == cfg.sslPath) (sslFolder cfg)
        (findOrPushIfAbsent (fun f : Folder => f.map == cfg.cwd) (cwdFolder cfg)
          (box.folders.getD []))).find? (fun f => f.map == cfg.cwd)).isSome :=
      findOrPushIfAbsent_isSome_mono h1
    rw [findOrPushIfAbsent_of_isSome h2]
    exact findOrPushIfAbsent_stable (by simp [sslFolder]) _
  · rw [mergeSites_eq_ifAbsent, mergeSites_eq_ifAbsent]
    exact findOrPushIfAbsent_stable (by simp [domainSite]) _
  · rw [mergeDatabases_eq_ifAbsent cfg hp, mergeDatabases_eq_ifAbsent cfg hp]
    exact findOrPushIfAbsent_stable (by simp) _

theorem merge_idempotent_witness :
    cfgEx.project ≠ "" ∧
    ((mergeBox cfgEx (mergeBox cfgEx boxEx0)).folders = (mergeBox cfgEx boxEx0).folders ∧
      (mergeBox cfgEx (mergeBox cfgEx boxEx0)).sites = (mergeBox cfgEx boxEx0).sites ∧
      (mergeBox cfgEx (mergeBox cfgEx boxEx0)).databases =
        (mergeBox cfgEx boxEx0).databases) :=
  ⟨by decide, merge_idempotent cfgEx boxEx0 (by decide)⟩

theorem mergeFolders_spec (cfg : ProjectConfig) (l : List Folder) :
    ∃ t, mergeFolders cfg l = l ++ t ∧ ∀ a ∈ t, ∀ b ∈ l, a.map ≠ b.map := by
  have hpcwd : ∀ y : Folder, (y.map == cfg.cwd) = true ↔ y.map = (cwdFolder cfg).map := by
    simp [cwdFolder]
  have hpssl : ∀ y : Folder, (y.map == cfg.sslPath) = true ↔ y.map = (sslFolder cfg).map := by
    simp [sslFolder]
  obtain ⟨t1, he1, hk1⟩ := findOrPushIfAbsent_spec hpcwd l
  obtain ⟨t2, he2, hk2⟩ :=
    findOrPushIfAbsent_spec hpssl
      (findOrPushIfAbsent (fun f => f.map == cfg.cwd) (cwdFolder cfg) l)
  refine ⟨t1 ++ t2, ?_, ?_⟩
  · rw [mergeFolders_eq_ifAbsent, he2, he1, List.append_assoc]
  · intro a ha b hb
    rcases List.mem_append.mp ha with h | h
    · exact hk1 a h b hb
    · apply hk2 a h b
      rw [he1]
      exact List.mem_append_left _ hb

theorem mergeSites_spec (cfg : ProjectConfig) (l : List Site) :
    ∃ t, mergeSites cfg l = l ++ t ∧ ∀ a ∈ t, ∀ b ∈ l, a.map ≠ b.map := by
  have hp : ∀ y : Site, (y.map == cfg.localDomain) = true ↔ y.map = (domainSite cfg).map := by
    simp [domainSite]
  obtain ⟨t, he, hk⟩ := findOrPushIfAbsent_spec hp l
  exact ⟨t, by rw [mergeSites_eq_ifAbsent]; exact he, hk⟩

theorem mergeDatabases_spec (cfg : ProjectConfig) (hp : cfg.project ≠ "")
    (l : List String) :
    ∃ t, mergeDatabases cfg l = l ++ t ∧ ∀ a ∈ t, ∀ b ∈ l, a ≠ b := by
  have hpk : ∀ y : String,
      (y == cfg.project) = true ↔ (fun z : String => z) y = (fun z : String => z) cfg.project := by
    simp
  obtain ⟨t, he, hk⟩ := findOrPushIfAbsent_spec hpk l
  exact ⟨t, by rw [mergeDatabases_eq_ifAbsent cfg hp]; exact he, hk⟩

theorem mergeFolders_nodup (cfg : ProjectConfig) {l : List Folder}
    (h : (l.map Folder.map).Nodup) : ((mergeFolders cfg l).map Folder.map).Nodup := by
  have hpcwd : ∀ y : Folder, (y.map == cfg.cwd) = true ↔ y.map = (cwdFolder cfg).map := by
    simp [cwdFolder]
  have hpssl : ∀ y : Folder, (y.map == cfg.sslPath) = true ↔ y.map = (sslFolder cfg).map := by
    simp [sslFolder]
  rw [mergeFolders_eq_ifAbsent]
  exact findOrPushIfAbsent_map_nodup hpssl (findOrPushIfAbsent_map_nodup hpcwd h)

theorem mergeSites_nodup (cfg : ProjectConfig) {l : List Site}
    (h : (l.map Site.map).Nodup) : ((mergeSites cfg l).map Site.map).Nodup := by
  have hp : ∀ y : Site, (y.map == cfg.localDomain) = true ↔ y.map = (domainSite cfg).map := by
    simp [domainSite]
  rw [mergeSites_eq_ifAbsent]
  exact findOrPushIfAbsent_map_nodup hp h

theorem mergeDatabases_nodup (cfg : ProjectConfig) (hp : cfg.project ≠ "")
    {l : List String} (h : l.Nodup) : (mergeDatabases cfg l).Nodup := by
  have hpk : ∀ y : String,
      (y == cfg.project) = true ↔ (fun z : String => z) y = (fun z : String => z) cfg.project := by
    simp
  have h2 : (l.map (fun z : String => z)).Nodup := by simpa using h
  have h3 := findOrPushIfAbsent_map_nodup hpk h2
  rw [mergeDatabases_eq_ifAbsent cfg hp]
  simpa using h3

/-- A Homestead document whose `databases` collection already holds the same
entry twice, as a hand-edited YAML file can. -/
def boxDupDb : BoxConfig :=
  { ip := "192.168.10.10", folders := none, sites := none,
    databases := some ["p", "p"] }

/-- C2 counterexample: starting from a BoxConfig whose `databases` already
contains the entry `"p"` twice, the merged `databases` collection still
contains two entries with the same uniqueness key, so the claim's
no-duplicates postcondition fails for this initial BoxConfig. -/
theorem merge_can_keep_duplicate_keys :
    ¬ ((mergeBox cfgEx boxDupDb).databases.getD []).Nodup := by decide

/-- C2 (amended): the merge keeps every pre-existing folder, site and
database entry unchanged, in place and in order; provided the resolved
project name is nonempty (JS-truthy - otherwise the databases guard finds a
falsy element and re-appends an already-present key), it only appends
entries whose uniqueness key (folder.map, site.map, the database string
itself) is not already present, and if each initial collection is free of
duplicate uniqueness keys then after the merge no collection contains two
entries with the same key. -/
theorem merge_append_only_unique (cfg : ProjectConfig) (box : BoxConfig)
    (hp : cfg.project ≠ "")
    (hF : ((box.folders.getD []).map Folder.map).Nodup)
    (hS : ((box.sites.getD []).map Site.map).Nodup)
    (hD : (box.databases.getD []).Nodup) :
    (∃ tF, (mergeBox cfg box).folders = some (box.folders.getD [] ++ tF) ∧
      ∀ a ∈ tF, ∀ b ∈ box.folders.getD [], a.map ≠ b.map) ∧
    (∃ tS, (mergeBox cfg box).sites = some (box.sites.getD [] ++ tS) ∧
      ∀ a ∈ tS, ∀ b ∈ box.sites.getD [], a.map ≠ b.map) ∧
    (∃ tD, (mergeBox cfg box).databases = some (box.databases.getD [] ++ tD) ∧
      ∀ a ∈ tD, ∀ b ∈ box.databases.getD [], a ≠ b) ∧
    (((mergeBox cfg box).folders.getD []).map Folder.map).Nodup ∧
    (((mergeBox cfg box).sites.getD []).map Site.map).Nodup ∧
    ((mergeBox cfg box).databases.getD []).Nodup := by
  obtain ⟨tF, heF, hkF⟩ := mergeFolders_spec cfg (box.folders.getD [])
  obtain ⟨tS, heS, hkS⟩ := mergeSites_spec cfg (box.sites.getD [])
  obtain ⟨tD, heD, hkD⟩ := mergeDatabases_spec cfg hp (box.databases.getD [])
  refine ⟨⟨tF, ?_, hkF⟩, ⟨tS, ?_, hkS⟩, ⟨tD, ?_, hkD⟩, ?_, ?_, ?_⟩
  · simp only [mergeBox]
    rw [heF]
  · simp only [mergeBox]
    rw [heS]
  · simp only [mergeBox]
    rw [heD]
  · simp only [mergeBox, Option.getD_some]
    exact mergeFolders_nodup cfg hF
  · simp only [mergeBox, Option.getD_some]
    exact mergeSites_nodup cfg hS
  · simp only [mergeBox, Option.getD_some]
    exact mergeDatabases_nodup cfg hp hD

theorem merge_append_only_unique_witness :
    cfgEx.project ≠ "" ∧
    ((boxEx0.folders.getD []).map Folder.map).Nodup ∧
    ((boxEx0.sites.getD []).map Site.map).Nodup ∧
    (boxEx0.databases.getD []).Nodup ∧
    ((∃ tF, (mergeBox cfgEx boxEx0).folders = some (boxEx0.folders.getD [] ++ tF) ∧
        ∀ a ∈ tF, ∀ b ∈ boxEx0.folders.getD [], a.map ≠ b.map) ∧
      (∃ tS, (mergeBox cfgEx boxEx0).sites = some (boxEx0.sites.getD [] ++ tS) ∧
        ∀ a ∈ tS, ∀ b ∈ boxEx0.sites.getD [], a.map ≠ b.map) ∧
      (∃ tD, (mergeBox cfgEx boxEx0).databases = some (boxEx0.databases.getD [] ++ tD) ∧
        ∀ a ∈ tD, ∀ b ∈ boxEx0.databases.getD [], a ≠ b) ∧
      (((mergeBox cfgEx boxEx0).folders.getD []).map Folder.map).Nodup ∧
      (((mergeBox cfgEx boxEx0).sites.getD []).map Site.map).Nodup ∧
      ((mergeBox cfgEx boxEx0).databases.getD []).Nodup) :=
  ⟨by decide, by decide, by decide, by decide,
    merge_append_only_unique cfgEx boxEx0 (by decide) (by decide) (by decide) (by decide)⟩

/-- The content directly appended to /etc/hosts by index.js line 163; the
source template literal ends in CRLF (`\r\n`). -/
def hostsDirectAppend (ip domain : String) : String :=
  ip ++ " " ++ domain ++ "\r\n"

/-- The fallback shell command built at index.js line 165. -/
def hostsFallbackCmd (ip domain : String) : String :=
  "echo \"" ++ ip ++ " " ++ domain ++ "\" | sudo tee -a /etc/hosts"

/-- The content the fallback command appends to /etc/hosts: `echo` prints
its argument followed by a single LF and `tee -a` appends that output. -/
def hostsFallbackAppend (ip domain : String) : String :=
  ip ++ " " ++ domain ++ "\n"

/-- The try/catch of index.js lines 162-166: attempt the direct append; on
any error of the direct append (the catch does not inspect the error kind)
run the elevated fallback command once.  `directFails` says whether the
direct append threw; the result is the content appended to /etc/hosts and
whether the elevated fallback ran. -/
def registerHosts (ip domain : String) (directFails : Bool) : String × Bool :=
  if directFails then (hostsFallbackAppend ip domain, true)
  else (hostsDirectAppend ip domain, false)

/-- C7 counterexample: a successful direct append writes
`192.168.10.10 example.local` followed by CRLF, not by the claimed LF, and
the fallback path appends content that is not byte-identical to the direct
append (LF versus CRLF terminator). -/
theorem hosts_direct_append_not_lf :
    (registerHosts "192.168.10.10" "example.local" false).1 ≠
      "192.168.10.10 example.local\n" ∧
    (registerHosts "192.168.10.10" "example.local" false).1 ≠
      (registerHosts "192.168.10.10" "example.local" true).1 := by
  decide

/-- C7 (amended): the Host Registrar first attempts a direct append of
`{ip} {domain}` followed by CRLF (`\r\n`) to the hosts file; exactly when
that direct append fails (on any failure - the catch is unconditional, not
restricted to permission errors) it falls back to a single elevated-shell
invocation that appends the same `{ip} {domain}` line terminated by LF;
no other retry is performed. -/
theorem registerHosts_semantics (ip domain : String) (directFails : Bool) :
    registerHosts ip domain directFails =
      (ip ++ " " ++ domain ++ (if directFails then "\n" else "\r\n"), directFails) := by
  cases directFails <;> rfl

/-- C6: with `--domain=example.local` against a box whose ip is
`192.168.10.10` and whose three collections are each absent or empty, the
merge initializes the collections and appends exactly the four expected
entries (working-directory folder, ssl folder, the `example.local` site and
the project database), and the hosts-file append content is the line
`192.168.10.10 example.local` (with the CRLF terminator the code writes). -/
def boxEmptyish (fo : Option (List Folder)) (so : Option (List Site))
    (dbo : Option (List String)) : BoxConfig :=
  { ip := "192.168.10.10", folders := fo, sites := so, databases := dbo }

theorem merge_concrete_run (fo : Option (List Folder)) (so : Option (List Site))
    (dbo : Option (List String))
    (hf : fo = none ∨ fo = some []) (hs : so = none ∨ so = some [])
    (hd : dbo = none ∨ dbo = some []) :
    mergeBox cfgEx (boxEmptyish fo so dbo) =
      { ip := "192.168.10.10",
        folders := some
          [{ map := "/work/foo", toPath := "/home/vagrant/homestead/foo", type := "nfs" },
           { map := "/home/u/.homesteadssl", toPath := "/home/vagrant/.homesteadssl",
             type := "nfs" }],
        sites := some [{ map := "example.local", toPath := "/home/vagrant/homestead/foo/www" }],
        databases := some ["foo"] } ∧
    hostsDirectAppend (mergeBox cfgEx (boxEmptyish fo so dbo)).ip cfgEx.localDomain =
      "192.168.10.10 example.local" ++ "\r\n" := by
  rcases hf with rfl | rfl <;> rcases hs with rfl | rfl <;> rcases hd with rfl | rfl <;>
    exact ⟨by decide, by decide⟩

theorem merge_concrete_run_witness :
    ((none : Option (List Folder)) = none ∨ (none : Option (List Folder)) = some []) ∧
    ((none : Option (List Site)) = none ∨ (none : Option (List Site)) = some []) ∧
    ((none : Option (List String)) = none ∨ (none : Option (List String)) = some []) ∧
    (mergeBox cfgEx (boxEmptyish none none none) =
      { ip := "192.168.10.10",
        folders := some
          [{ map := "/work/foo", toPath := "/home/vagrant/homestead/foo", type := "nfs" },
           { map := "/home/u/.homesteadssl", toPath := "/home/vagrant/.homesteadssl",
             type := "nfs" }],
        sites := some [{ map := "example.local", toPath := "/home/vagrant/homestead/foo/www" }],
        databases := some ["foo"] } ∧
    hostsDirectAppend (mergeBox cfgEx (boxEmptyish none none none)).ip cfgEx.localDomain =
      "192.168.10.10 example.local" ++ "\r\n") :=
  ⟨Or.inl rfl, Or.inl rfl, Or.inl rfl,
    merge_concrete_run none none none (Or.inl rfl) (Or.inl rfl) (Or.inl rfl)⟩

/-- The remote-database record assembled at index.js lines 60-67. -/
structure RemoteDatabase where
  user : String
  password : String
  host : String
  name : String
  port : Int
  schema : String
deriving DecidableEq, Repr

/-- The remoteDatabase resolver of index.js lines 47-68: absent unless the
`remote-db-user`, `remote-db-password` and `remote-db-host` flags are all
strings; `name` defaults to the resolved project, `port` to 3306 (the flag
must be a number), `schema` to `"public"`. -/
def remoteDatabase (user password host name port schema : JSVal)
    (project : String) : Option RemoteDatabase :=
  match user with
  | .str us =>
    match password with
    | .str ps =>
      match host with
      | .str hs =>
        some { user := us, password := ps, host := hs,
               name := (match name with | .str ns => ns | _ => project),
               port := (match port with | .num x => x | _ => 3306),
               schema := (match schema with | .str ss => ss | _ => "public") }
      | _ => none
    | _ => none
  | _ => none

/-- C4: remoteDatabase is present iff the user, password and host flags are
all strings (so two of the three yield an absent value even though
individual flags were given), and when present `name` defaults to the
resolved project name, `port` to 3306 and `schema` to `"public"`. -/
theorem remoteDatabase_all_or_nothing (u p h n po sc : JSVal) (project : String) :
    ((remoteDatabase u p h n po sc project).isSome ↔
      jsIsStr u = true ∧ jsIsStr p = true ∧ jsIsStr h = true) ∧
    (∀ us ps, remoteDatabase (.str us) (.str ps) .undef n po sc project = none) ∧
    (∀ us hs, remoteDatabase (.str us) .undef (.str hs) n po sc project = none) ∧
    (∀ ps hs, remoteDatabase .undef (.str ps) (.str hs) n po sc project = none) ∧
    (∀ us ps hs, remoteDatabase (.str us) (.str ps) (.str hs) .undef .undef .undef project =
      some { user := us, password := ps, host := hs, name := project, port := 3306,
             schema := "public" }) := by
  refine ⟨?_, ?_, ?_, ?_, ?_⟩
  · cases u <;> cases p <;> cases h <;> simp [remoteDatabase, jsIsStr]
  · intro us ps; rfl
  · intro us hs; rfl
  · intro ps hs; rfl
  · intro us ps hs; rfl

/-- JavaScript `String.prototype.split` with a single-character separator,
over explicit character lists (structurally recursive so that the kernel
can evaluate it). -/
def splitOnChar (c : Char) : List Char → List (List Char)
  | [] => [[]]
  | x :: xs =>
    if x = c then [] :: splitOnChar c xs
    else
      match splitOnChar c xs with
      | [] => [[x]]
      | h :: t => (x :: h) :: t

/-- The project resolver of index.js lines 15-28: when the manifest read
succeeds (`readOk`) and its `name` field is a truthy string, the project is
the last `/`-separated segment of that name (`name.split('/').pop()`);
otherwise (read or parse failure, absent or empty name - the catch also
covers a non-string name, whose `.split` throws) the basename of the
working directory. -/
def project (readOk : Bool) (name : Option String) (directory : String) : String :=
  if readOk then
    match name with
    | some s =>
      if s ≠ "" then String.mk ((splitOnChar (Char.ofNat 47) s.data).getLastD [])
      else directory
    | none => directory
  else directory

/-- C5: the manifest name `@scope/my-app` resolves to project `my-app`;
on a manifest read or parse failure, or when the name field is absent, the
resolution falls back to the directory basename (directory `foo` resolves
to `foo`) and is total, hence never fatal. -/
theorem project_resolution (d : String) (n : Option String) :
    project true (some "@scope/my-app") d = "my-app" ∧
    project true (some "@scope/my-app") "foo" = "my-app" ∧
    project false n d = d ∧
    project false n "foo" = "foo" ∧
    project true none d = d := by
  exact ⟨rfl, rfl, rfl, rfl, rfl⟩

/-- JavaScript GetSubstitution for a string pattern (no capture groups), as
performed by `String.prototype.replace` on the replacement string: `$$`
yields `$`, `$&` the matched substring, `$` + backtick (char 96) the text
before the match, `$` + apostrophe (char 39) the text after the match; any
other `$` is literal. -/
def expandDollar (matched before after : List Char) : List Char → List Char
  | [] => []
  | [c] => [c]
  | c :: d :: rest =>
    if c = Char.ofNat 36 then
      if d = Char.ofNat 36 then Char.ofNat 36 :: expandDollar matched before after rest
      else if d = Char.ofNat 38 then matched ++ expandDollar matched before after rest
      else if d = Char.ofNat 96 then before ++ expandDollar matched before after rest
      else if d = Char.ofNat 39 then after ++ expandDollar matched before after rest
      else c :: expandDollar matched before after (d :: rest)
    else c :: expandDollar matched before after (d :: rest)

/-- The split of a text at the first occurrence of `pattern`: the text
before the match and the text after it, or `none` when the pattern does not
occur. -/
def findFirst (pattern : List Char) : List Char → Option (List Char × List Char)
  | [] => if pattern = [] then some ([], []) else none
  | c :: rest =>
    if pattern.isPrefixOf (c :: rest) then some ([], (c :: rest).drop pattern.length)
    else
      match findFirst pattern rest with
      | some (b, a) => some (c :: b, a)
      | none => none

/-- JavaScript `data.replace(pattern, replacement)` with a string pattern:
replace only the first occurrence of `pattern`, expanding the dollar escape
sequences of the replacement; the text before and after the match is kept.
This is the operation index.js line 86 applies once per replacement pair. -/
def jsReplace (data pattern replacement : String) : String :=
  match findFirst pattern.data data.data with
  | none => data
  | some (b, a) =>
    String.mk (b ++ expandDollar pattern.data b a replacement.data ++ a)

/-- The `Object.entries(replacements).reduce` of index.js line 86: apply
each (pattern, replacement) pair of the object, in insertion order, to the
file text.  `replaceInFile` is this pure core between one file read and one
file write. -/
def applyReplacements (data : String) (repls : List (String × String)) : String :=
  repls.foldl (fun s pr => jsReplace s pr.1 pr.2) data

theorem expandDollar_no_dollar (matched before after : List Char) :
    ∀ repl, Char.ofNat 36 ∉ repl → expandDollar matched before after repl = repl
  | [], _ => rfl
  | [c], _ => rfl
  | c :: d :: rest, h => by
    have hc : ¬ c = Char.ofNat 36 := fun e => h (by rw [e]; exact List.mem_cons_self _ _)
    have ih := expandDollar_no_dollar matched before after (d :: rest)
      (fun hm => h (List.mem_cons_of_mem _ hm))
    simp only [expandDollar, if_neg hc]
    rw [ih]

theorem findFirst_some {pattern : List Char} :
    ∀ l b a, findFirst pattern l = some (b, a) → l = b ++ pattern ++ a := by
  intro l
  induction l with
  | nil =>
    intro b a h
    by_cases hp : pattern = []
    · rw [findFirst, if_pos hp] at h
      obtain ⟨rfl, rfl⟩ := Prod.mk.injEq .. ▸ Option.some.injEq .. ▸ h
      simp [hp]
    · rw [findFirst, if_neg hp] at h
      exact absurd h (by simp)
  | cons c rest ih =>
    intro b a h
    by_cases hpre : pattern.isPrefixOf (c :: rest)
    · rw [findFirst, if_pos hpre] at h
      have hp : pattern <+: c :: rest := List.isPrefixOf_iff_prefix.mp hpre
      obtain ⟨t, ht⟩ := hp
      have hdrop : (c :: rest).drop pattern.length = t := by
        rw [← ht, List.drop_left]
      rw [hdrop] at h
      obtain ⟨rfl, rfl⟩ := Prod.mk.injEq .. ▸ Option.some.injEq .. ▸ h
      simp [← ht]
    · rw [findFirst, if_neg hpre] at h
      cases hm : findFirst pattern rest with
      | none => rw [hm] at h; exact absurd h (by simp)
      | some pa =>
        obtain ⟨b0, a0⟩ := pa
        rw [hm] at h
        obtain ⟨rfl, rfl⟩ := Prod.mk.injEq .. ▸ Option.some.injEq .. ▸ h
        have := ih b0 a0 hm
        simp [this]

theorem findFirst_minimal {pattern : List Char} :
    ∀ l b a, findFirst pattern l = some (b, a) →
      ∀ b2 a2, l = b2 ++ pattern ++ a2 → b.length ≤ b2.length := by
  intro l
  induction l with
  | nil =>
    intro b a h b2 a2 _
    by_cases hp : pattern = []
    · rw [findFirst, if_pos hp] at h
      obtain ⟨rfl, rfl⟩ := Prod.mk.injEq .. ▸ Option.some.injEq .. ▸ h
      simp
    · rw [findFirst, if_neg hp] at h
      exact absurd h (by simp)
  | cons c rest ih =>
    intro b a h b2 a2 he
    by_cases hpre : pattern.isPrefixOf (c :: rest)
    · rw [findFirst, if_pos hpre] at h
      obtain ⟨rfl, rfl⟩ := Prod.mk.injEq .. ▸ Option.some.injEq .. ▸ h
      simp
    · rw [findFirst, if_neg hpre] at h
      cases hm : findFirst pattern rest with
      | none => rw [hm] at h; exact absurd h (by simp)
      | some pa =>
        obtain ⟨b0, a0⟩ := pa
        rw [hm] at h
        obtain ⟨rfl, rfl⟩ := Prod.mk.injEq .. ▸ Option.some.injEq .. ▸ h
        cases b2 with
        | nil =>
          exfalso
          apply hpre
          apply List.isPrefixOf_iff_prefix.mpr
          exact ⟨a2, by simpa using he.symm⟩
        | cons c2 b2t =>
          have hc : c = c2 ∧ rest = b2t ++ pattern ++ a2 := by
            have := he
            simp only [List.cons_append] at this
            exact ⟨by injection this, by injection this⟩
          simp only [List.length_cons, Nat.succ_le_succ_iff]
          exact ih b0 a0 hm b2t a2 hc.2

theorem findFirst_none {pattern : List Char} :
    ∀ l, findFirst pattern l = none → ∀ b a, l ≠ b ++ pattern ++ a := by
  intro l
  induction l with
  | nil =>
    intro h b a he
    by_cases hp : pattern = []
    · rw [findFirst, if_pos hp] at h
      exact absurd h (by simp)
    · have h2 : (b ++ pattern) ++ a = [] := he.symm
      obtain ⟨h3, _⟩ := List.append_eq_nil.mp h2
      obtain ⟨_, hpat⟩ := List.append_eq_nil.mp h3
      exact hp hpat
  | cons c rest ih =>
    intro h b a he
    by_cases hpre : pattern.isPrefixOf (c :: rest)
    · rw [findFirst, if_pos hpre] at h
      exact absurd h (by simp)
    · rw [findFirst, if_neg hpre] at h
      cases hm : findFirst pattern rest with
      | some pa => rw [hm] at h; obtain ⟨b0, a0⟩ := pa; exact absurd h (by simp)
      | none =>
        cases b with
        | nil =>
          apply hpre
          apply List.isPrefixOf_iff_prefix.mpr
          exact ⟨a, by simpa using he.symm⟩
        | cons c2 b2t =>
          have hc : rest = b2t ++ pattern ++ a := by
            have := he
            simp only [List.cons_append] at this
            injection this
          exact ih hm b2t a hc

/-- C3 counterexample: a replacement containing `$&` is not inserted
literally - `String.replace` expands `$&` to the matched substring, so with
`--security-key=$&` the template line becomes
`SECURITY_KEY="SECURITY_KEY="""` instead of containing the replacement
text verbatim. -/
theorem replace_not_literal_on_dollar :
    jsReplace "SECURITY_KEY=\"\"" "SECURITY_KEY=\"\"" "SECURITY_KEY=\"$&\"" ≠
      "SECURITY_KEY=\"$&\"" ∧
    jsReplace "SECURITY_KEY=\"\"" "SECURITY_KEY=\"\"" "SECURITY_KEY=\"$&\"" =
      "SECURITY_KEY=\"SECURITY_KEY=\"\"\"" := by
  decide

/-- C3 (amended): replaceInFile performs sequential substring replacement
over the file's full text; for each (pattern, replacement) pair only the
first occurrence of the pattern is replaced and every part of the text
before and after that match is byte-for-byte unchanged; the replacement
string is inserted literally provided it contains no dollar sign
(JavaScript String.replace expands the escapes `$$`, `$&` and the
before/after-match escapes inside the replacement, so replacements holding
`$` are not literal); in particular with `--security-key=abc123` the text
`SECURITY_KEY=""` becomes `SECURITY_KEY="abc123"` and the other, unmatched
line is unchanged. -/
theorem jsReplace_first_occurrence_literal (data pattern repl : String)
    (hd : Char.ofNat 36 ∉ repl.data) :
    ((∃ b a, data.data = b ++ pattern.data ++ a ∧
        (∀ b2 a2, data.data = b2 ++ pattern.data ++ a2 → b.length ≤ b2.length) ∧
        jsReplace data pattern repl = String.mk (b ++ repl.data ++ a)) ∨
      ((∀ b a, data.data ≠ b ++ pattern.data ++ a) ∧ jsReplace data pattern repl = data)) ∧
    jsReplace "SECURITY_KEY=\"\"\nDB_USER=\"root\"" "SECURITY_KEY=\"\""
        "SECURITY_KEY=\"abc123\"" = "SECURITY_KEY=\"abc123\"\nDB_USER=\"root\"" := by
  constructor
  · cases hm : findFirst pattern.data data.data with
    | none =>
      right
      refine ⟨findFirst_none data.data hm, ?_⟩
      simp only [jsReplace, hm]
    | some pa =>
      obtain ⟨b, a⟩ := pa
      left
      refine ⟨b, a, findFirst_some data.data b a hm, findFirst_minimal data.data b a hm, ?_⟩
      simp only [jsReplace, hm]
      rw [expandDollar_no_dollar pattern.data b a repl.data hd]
  · decide

theorem jsReplace_first_occurrence_literal_witness :
    Char.ofNat 36 ∉ "xyz".data ∧
    (((∃ b a, "ab".data = b ++ "b".data ++ a ∧
        (∀ b2 a2, "ab".data = b2 ++ "b".data ++ a2 → b.length ≤ b2.length) ∧
        jsReplace "ab" "b" "xyz" = String.mk (b ++ "xyz".data ++ a)) ∨
      ((∀ b a, "ab".data ≠ b ++ "b".data ++ a) ∧ jsReplace "ab" "b" "xyz" = "ab")) ∧
    jsReplace "SECURITY_KEY=\"\"\nDB_USER=\"root\"" "SECURITY_KEY=\"\""
        "SECURITY_KEY=\"abc123\"" = "SECURITY_KEY=\"abc123\"\nDB_USER=\"root\"") :=
  ⟨by decide, jsReplace_first_occurrence_literal "ab" "b" "xyz" (by decide)⟩

/-- The replacement pairs applied to ./craft/.env (index.js lines 185-192),
in object-literal order.  The security-key value is interpolated with JS
stringification (an absent flag prints as `undefined`); the prefix value is
`databasePrefix || ''`; the `DB_TABLE_PREFIX=""` pattern is rewritten to a
`DB_PREFIX="..."` line. -/
def craftEnvReplacements (securityKey : JSVal) (ip projectName : String)
    (databasePrefix : Option String) : List (String × String) :=
  [("SECURITY_KEY=\"\"", "SECURITY_KEY=\"" ++ jsToString securityKey ++ "\""),
   ("DB_SERVER=\"localhost\"", "DB_SERVER=\"" ++ ip ++ "\""),
   ("DB_USER=\"root\"", "DB_USER=\"homestead\""),
   ("DB_PASSWORD=\"\"", "DB_PASSWORD=\"secret\""),
   ("DB_DATABASE=\"\"", "DB_DATABASE=\"" ++ projectName ++ "\""),
   ("DB_TABLE_PREFIX=\"\"", "DB_PREFIX=\"" ++ databasePrefix.getD "" ++ "\"")]

/-- The replacement pairs applied to ./scripts/.env.sh (index.js lines
203-229): the base object, extended with the remote-database pairs when
`remoteDatabase` is present (the truthiness test at line 214) and with the
`GLOBAL_DB_TABLE_PREFIX` pair only when `databasePrefix` is truthy (line
225), whose replacement appends a trailing underscore. -/
def shEnvReplacements (cwd ip projectName : String)
    (remoteDb : Option RemoteDatabase) (databasePrefix : Option String) :
    List (String × String) :=
  [("GLOBAL_CRAFT_PATH=\"./\"", "GLOBAL_CRAFT_PATH=\"./craft/\""),
   ("LOCAL_ROOT_PATH=\"REPLACE_ME\"", "LOCAL_ROOT_PATH=\"" ++ cwd ++ "/\""),
   ("LOCAL_ASSETS_PATH=${LOCAL_ROOT_PATH}\"REPLACE_ME\"",
    "LOCAL_ASSETS_PATH=${LOCAL_ROOT_PATH}\"files/\""),
   ("LOCAL_DB_NAME=\"REPLACE_ME\"", "LOCAL_DB_NAME=\"" ++ projectName ++ "\""),
   ("LOCAL_DB_PASSWORD=\"REPLACE_ME\"", "LOCAL_DB_PASSWORD=\"secret\""),
   ("LOCAL_DB_USER=\"REPLACE_ME\"", "LOCAL_DB_USER=\"homestead\""),
   ("LOCAL_DB_HOST=\"localhost\"", "LOCAL_DB_HOST=\"" ++ ip ++ "\"")]
  ++ (match remoteDb with
      | some r =>
        [("REMOTE_DB_NAME=\"REPLACE_ME\"", "REMOTE_DB_NAME=\"" ++ r.name ++ "\""),
         ("REMOTE_DB_PASSWORD=\"REPLACE_ME\"",
          "REMOTE_DB_PASSWORD=\"" ++ r.password ++ "\""),
         ("REMOTE_DB_USER=\"REPLACE_ME\"", "REMOTE_DB_USER=\"" ++ r.user ++ "\""),
         ("REMOTE_DB_HOST=\"localhost\"", "REMOTE_DB_HOST=\"" ++ r.host ++ "\""),
         ("REMOTE_DB_PORT=\"3306\"", "REMOTE_DB_PORT=\"" ++ toString r.port ++ "\""),
         ("REMOTE_DB_SCHEMA=\"public\"", "REMOTE_DB_SCHEMA=\"" ++ r.schema ++ "\"")]
      | none => [])
  ++ (match databasePrefix with
      | some s =>
        if s ≠ "" then
          [("GLOBAL_DB_TABLE_PREFIX=\"\"", "GLOBAL_DB_TABLE_PREFIX=\"" ++ s ++ "_\"")]
        else []
      | none => [])

/-- The observable steps of the tail of configureCraftEnv
(index.js lines 181-241). -/
inductive Action where
  | craftAttempt
  | craftFailureReport
  | shAttempt
  | shFailureReport
  | securityKeySetup
deriving DecidableEq, Repr

/-- The control flow of index.js lines 183-241: the craft/.env block runs in
its own try/catch whose handler only logs; the scripts/.env.sh block runs in
a second, independent try/catch whose handler only logs; afterwards
`./craft/craft setup/security-key` runs exactly when `!securityKey` holds
(JS truthiness).  `craftFails`/`shFails` say whether the respective block
threw. -/
def templatePhase (craftFails shFails : Bool) (securityKey : JSVal) : List Action :=
  [Action.craftAttempt] ++ (if craftFails then [Action.craftFailureReport] else []) ++
  [Action.shAttempt] ++ (if shFails then [Action.shFailureReport] else []) ++
  (if jsTruthy securityKey then [] else [Action.securityKeySetup])

/-- C8: a failure of either template block never aborts the other: both
templates are attempted whatever the other did, each failure is reported
exactly when it occurs, and the run always continues to the security-key
step when that step is due (the flag being absent or falsy). -/
theorem template_failures_isolated (cf sf : Bool) (k : JSVal) :
    Action.craftAttempt ∈ templatePhase cf sf k ∧
    Action.shAttempt ∈ templatePhase cf sf k ∧
    (Action.craftFailureReport ∈ templatePhase cf sf k ↔ cf = true) ∧
    (Action.shFailureReport ∈ templatePhase cf sf k ↔ sf = true) ∧
    (Action.securityKeySetup ∈ templatePhase cf sf k ↔ jsTruthy k = false) := by
  cases cf <;> cases sf <;> cases hk : jsTruthy k <;> simp [templatePhase, hk]

/-- C9 counterexample: supplying the flag as `--security-key=` resolves the
security key to the empty string - a supplied value, not `undefined` - yet
the setup command still runs, because the guard at index.js line 237 tests
JS truthiness, not whether the flag was supplied; so the claimed
"invoked if and only if no key was supplied" fails. -/
theorem securityKey_setup_iff_fails :
    JSVal.str "" ≠ JSVal.undef ∧
    Action.securityKeySetup ∈ templatePhase false false (JSVal.str "") := by
  decide

/-- C9 (amended): when the flag is absent the base replacement set still
rewrites `SECURITY_KEY=""` to `SECURITY_KEY="undefined"` (the JS
stringification of the undefined value); the setup command is the last step
of the phase, run only after both templates were attempted, and it runs if
and only if the resolved security-key value is JS-falsy (absent, the empty
string, false or 0) - not exactly when no key was supplied. -/
theorem securityKey_undefined_then_setup (cf sf : Bool) (k : JSVal) :
    applyReplacements "SECURITY_KEY=\"\""
        (craftEnvReplacements JSVal.undef "192.168.10.10" "foo" none) =
      "SECURITY_KEY=\"undefined\"" ∧
    (Action.securityKeySetup ∈ templatePhase cf sf k ↔ jsTruthy k = false) ∧
    ((templatePhase cf sf k).getLast? = some Action.securityKeySetup ↔
      jsTruthy k = false) ∧
    Action.craftAttempt ∈ templatePhase cf sf k ∧
    Action.shAttempt ∈ templatePhase cf sf k := by
  refine ⟨by decide, ?_⟩
  cases cf <;> cases sf <;> cases hk : jsTruthy k <;> simp [templatePhase, hk]

/-- C10: the database-prefix handling differs between the two templates: in
./craft/.env the pair replacing `DB_TABLE_PREFIX=""` is applied on every
run (with the empty string when the flag is absent) and renames the
variable to `DB_PREFIX="<prefix>"`; in ./scripts/.env.sh the
`GLOBAL_DB_TABLE_PREFIX=""` pair is added only when a database prefix is
present (and truthy), and its replacement appends a trailing underscore. -/
theorem database_prefix_asymmetry (k : JSVal) (ip proj cwd : String)
    (r : Option RemoteDatabase) :
    (∀ pre : Option String,
      ("DB_TABLE_PREFIX=\"\"", "DB_PREFIX=\"" ++ pre.getD "" ++ "\"") ∈
        craftEnvReplacements k ip proj pre) ∧
    (∀ pat rep, (pat, rep) ∈ shEnvReplacements cwd ip proj r none →
      pat ≠ "GLOBAL_DB_TABLE_PREFIX=\"\"") ∧
    (∀ s : String, s ≠ "" →
      ("GLOBAL_DB_TABLE_PREFIX=\"\"", "GLOBAL_DB_TABLE_PREFIX=\"" ++ s ++ "_\"") ∈
        shEnvReplacements cwd ip proj r (some s)) := by
  refine ⟨?_, ?_, ?_⟩
  · intro pre
    simp [craftEnvReplacements]
  · intro pat rep hmem hpat
    subst hpat
    cases r with
    | none => simp [shEnvReplacements] at hmem
    | some rr => simp [shEnvReplacements] at hmem
  · intro s hs
    simp only [shEnvReplacements, if_pos hs]
    cases r <;> simp

theorem database_prefix_asymmetry_witness :
    ("GLOBAL_DB_TABLE_PREFIX=\"\"", "GLOBAL_DB_TABLE_PREFIX=\"pre_\"") ∈
      shEnvReplacements "/work/foo" "192.168.10.10" "foo" none (some "pre") :=
  (database_prefix_asymmetry JSVal.undef "192.168.10.10" "foo" "/work/foo" none).2.2
    "pre" (by decide)

end CraftEnv
